import Mathlib

/-
  Verification development for the AMC grade-management tool (appy16.py).

  The program ingests a roster spreadsheet with an unknown-position header
  row, normalizes it, validates a semicolon-delimited grade export against
  it, and writes a merged spreadsheet that replays the preamble rows above
  the joined table.

  Shallow embedding: a spreadsheet or CSV cell is a Cell (text, numeric, or
  missing); a parsed headerless sheet is a RawTable; a pandas DataFrame with
  named columns is a DF (column labels plus rows).  Numeric coercion with
  errors set to missing (pd.to_numeric with coerce) is toNum.  Session state
  is an explicit ExcState record threaded through process_excel and read by
  process_csv and generate_final_excel.  Excel serialization is modelled as
  an ordered list of cell writes (row, column, value) with last write wins.
-/

namespace AMCTools

/-- Cell of a spreadsheet or delimited file: a text value, a numeric value,
or a missing value (NaN). -/
inductive Cell where
  | str (s : String)
  | num (q : ℚ)
  | na
deriving DecidableEq

/-- Headerless parsed sheet, as produced by read_excel with header None:
an ordered list of rows of cells. -/
abbrev RawTable := List (List Cell)

/-- DataFrame with named columns: column labels (cell values, since header
promotion can make any cell a label) and data rows. -/
structure DF where
  cols : List Cell
  rows : List (List Cell)
deriving DecidableEq

/-- Character-list helper: parse a nonempty all-digit string to a Nat. -/
def parseDigits (cs : List Char) : Option Nat :=
  match cs with
  | [] => none
  | _ =>
    if cs.all Char.isDigit then
      some (cs.foldl (fun n c => n * 10 + (c.toNat - 48)) 0)
    else
      none

/-- Strip leading and trailing spaces from a character list. -/
def trimChars (cs : List Char) : List Char :=
  ((cs.dropWhile (fun c => c = ' ')).reverse.dropWhile (fun c => c = ' ')).reverse

/-- Parse an optional fraction part: integer part before a single dot,
fractional digits after it. -/
def parseNumCore (cs : List Char) : Option ℚ :=
  let ip := cs.takeWhile (fun c => c ≠ '.')
  let rest := cs.dropWhile (fun c => c ≠ '.')
  match rest with
  | [] => (parseDigits ip).map (fun n => mkRat (Int.ofNat n) 1)
  | _ :: fp =>
    if fp.any (fun c => c = '.') then none
    else
      match parseDigits ip, parseDigits fp with
      | some a, some b =>
        some (mkRat (Int.ofNat a * (10 : Int) ^ fp.length + Int.ofNat b)
          ((10 : Nat) ^ fp.length))
      | _, _ => none

/-- Numeric parse of a text value, as pd.to_numeric accepts it on the inputs
this tool sees: optional sign, digits, optional decimal point. -/
def parseNum (s : String) : Option ℚ :=
  match trimChars s.data with
  | '-' :: cs => (parseNumCore cs).map (fun q => -q)
  | '+' :: cs => parseNumCore cs
  | cs => parseNumCore cs

/-- Coerce one cell to numeric, pd.to_numeric with errors coerce: numbers
stay, unparsable text and missing values become missing. -/
def toNum (c : Cell) : Cell :=
  match c with
  | Cell.num q => Cell.num q
  | Cell.na => Cell.na
  | Cell.str s =>
    match parseNum s with
    | some q => Cell.num q
    | none => Cell.na

/-- Text rendering of a cell, astype(str): strings unchanged, numbers
rendered, missing rendered as the text nan. -/
def cellStr (c : Cell) : String :=
  match c with
  | Cell.str s => s
  | Cell.num q => toString q
  | Cell.na => "nan"

/-- Required header markers of process_excel. -/
def required_terms : List String := ["Code", "Nom", "Prénom"]

/-- Does a row contain every required term among its cells rendered as
text, exact comparison.  This is the per-row test of find_header_row. -/
def rowHasAll (row : List Cell) (required : List String) : Bool :=
  required.all (fun term => (row.map cellStr).contains term)

/-- Scan rows from index n onward, returning the index of the first row
that contains all required terms. -/
def findHeaderAux (rows : RawTable) (required : List String) (n : Nat) : Option Nat :=
  match rows with
  | [] => none
  | row :: rest =>
    if rowHasAll row required then some n else findHeaderAux rest required (n + 1)

/-- Header Locator of the source: index of the first row whose text values
include every required term, or none. -/
def find_header_row (df : RawTable) (required : List String) : Option Nat :=
  findHeaderAux df required 0

/-! Basic lemmas about the Header Locator. -/

theorem findHeaderAux_none_iff (required : List String) :
    ∀ (rows : RawTable) (n : Nat),
      findHeaderAux rows required n = none ↔
        ∀ row ∈ rows, rowHasAll row required = false := by
  intro rows
  induction rows with
  | nil => intro n; simp [findHeaderAux]
  | cons row rest ih =>
    intro n
    by_cases h : rowHasAll row required
    · simp [findHeaderAux, h]
    · rw [Bool.not_eq_true] at h
      simp only [findHeaderAux, h, Bool.false_eq_true, if_false, ih (n + 1),
        List.mem_cons]
      constructor
      · rintro hall r (hr | hr)
        · exact hr ▸ h
        · exact hall r hr
      · intro hall r hr
        exact hall r (Or.inr hr)

theorem findHeaderAux_some_iff (required : List String) :
    ∀ (rows : RawTable) (n m : Nat),
      findHeaderAux rows required n = some m ↔
        (n ≤ m ∧
          (∃ row, rows[m - n]? = some row ∧ rowHasAll row required = true) ∧
          ∀ j, j < m - n → ∀ prev, rows[j]? = some prev →
            rowHasAll prev required = false) := by
  intro rows
  induction rows with
  | nil => intro n m; simp [findHeaderAux]
  | cons row rest ih =>
    intro n m
    by_cases h : rowHasAll row required
    · simp only [findHeaderAux, h, if_true]
      constructor
      · rintro hm
        injection hm with hm
        subst hm
        refine ⟨le_refl n, ⟨row, by simp, h⟩, ?_⟩
        intro j hj
        omega
      · rintro ⟨hnm, _, hfirst⟩
        rcases Nat.eq_or_lt_of_le hnm with heq | hlt
        · simp [heq]
        · exfalso
          have hpos : 0 < m - n := by omega
          have hbad := hfirst 0 hpos row (by simp)
          rw [hbad] at h
          exact Bool.noConfusion h
    · rw [Bool.not_eq_true] at h
      simp only [findHeaderAux, h, Bool.false_eq_true, if_false]
      rw [ih (n + 1) m]
      constructor
      · rintro ⟨hnm, ⟨r, hr, hgood⟩, hfirst⟩
        have hd : m - n = (m - (n + 1)) + 1 := by omega
        refine ⟨by omega, ⟨r, ?_, hgood⟩, ?_⟩
        · rw [hd]
          simpa using hr
        · intro j hj prev hprev
          cases j with
          | zero =>
            simp only [List.getElem?_cons_zero, Option.some.injEq] at hprev
            exact hprev ▸ h
          | succ j' =>
            rw [List.getElem?_cons_succ] at hprev
            exact hfirst j' (by omega) prev hprev
      · rintro ⟨hnm, ⟨r, hr, hgood⟩, hfirst⟩
        have hne : m ≠ n := by
          intro heq
          rw [heq, Nat.sub_self, List.getElem?_cons_zero, Option.some.injEq] at hr
          rw [hr] at h
          rw [h] at hgood
          exact Bool.noConfusion hgood
        have hd : m - n = (m - (n + 1)) + 1 := by omega
        rw [hd, List.getElem?_cons_succ] at hr
        refine ⟨by omega, ⟨r, hr, hgood⟩, ?_⟩
        intro j hj prev hprev
        exact hfirst (j + 1) (by omega) prev (by simpa using hprev)

theorem find_header_row_none_iff (rows : RawTable) (required : List String) :
    find_header_row rows required = none ↔
      ∀ row ∈ rows, rowHasAll row required = false :=
  findHeaderAux_none_iff required rows 0

theorem find_header_row_some_iff (rows : RawTable) (required : List String) (m : Nat) :
    find_header_row rows required = some m ↔
      ((∃ row, rows[m]? = some row ∧ rowHasAll row required = true) ∧
        ∀ j, j < m → ∀ prev, rows[j]? = some prev →
          rowHasAll prev required = false) := by
  unfold find_header_row
  rw [findHeaderAux_some_iff]
  simp

theorem rowHasAll_iff (row : List Cell) (required : List String) :
    rowHasAll row required = true ↔
      ∀ term ∈ required, term ∈ row.map cellStr := by
  simp only [rowHasAll, List.all_eq_true]
  constructor
  · intro hall term ht
    exact List.elem_iff.mp (hall term ht)
  · intro hall term ht
    exact List.elem_iff.mpr (hall term ht)

/-! DataFrame column operations. -/

/-- Index of the first column whose label is the given string. -/
def colIdx (df : DF) (l : String) : Option Nat :=
  df.cols.findIdx? (fun c => c = Cell.str l)

/-- Values of the column with the given label, empty if absent. -/
def getColByLabel (df : DF) (l : String) : List Cell :=
  match colIdx df l with
  | some i => df.rows.map (fun r => r.getD i Cell.na)
  | none => []

/-- Coerce the column with the given label to numeric, unparsable values
becoming missing (pd.to_numeric with errors coerce on one column). -/
def coerceCol (df : DF) (l : String) : DF :=
  match colIdx df l with
  | some i => ⟨df.cols, df.rows.map (fun r => r.set i (toNum (r.getD i Cell.na)))⟩
  | none => df

/-- Number of missing values in a list of cells (isna().sum()). -/
def countNa (col : List Cell) : Nat :=
  (col.filter (fun c => c = Cell.na)).length

/-! Roster Normalizer (process_excel). -/

/-- Session state: the stored normalized roster (original_data) and the
stored preamble rows (header_rows). -/
structure ExcState where
  original_data : Option DF
  header_rows : Option RawTable
deriving DecidableEq

/-- Fatal failures of process_excel: the required header row was not found,
the table is empty after header promotion, or reading the bytes raised. -/
inductive ExcErr where
  | headerNotFound
  | emptyRoster
  | parseError
deriving DecidableEq

/-- Non-fatal warnings of process_excel: n invalid student codes. -/
inductive Warn where
  | invalidCodes (n : Nat)
deriving DecidableEq

/-- Header promotion renames the label Code to the canonical A:Code. -/
def renameCols (hdr : List Cell) : List Cell :=
  hdr.map (fun c => if c = Cell.str "Code" then Cell.str "A:Code" else c)

/-- Build the roster table from the promoted header row and the data rows:
rename Code, then coerce the canonical identifier column to numeric. -/
def buildRoster (hdr : List Cell) (data : List (List Cell)) : DF :=
  coerceCol ⟨renameCols hdr, data⟩ "A:Code"

/-- Warning list of process_excel: one invalid-codes warning when the
coerced identifier column has missing values. -/
def rosterWarnings (roster : DF) : List Warn :=
  if 0 < countNa (getColByLabel roster "A:Code")
  then [Warn.invalidCodes (countNa (getColByLabel roster "A:Code"))]
  else []

/-- Roster Normalizer.  Input none stands for a spreadsheet whose bytes
fail to parse (read_excel raises, the except branch runs).  On success the
session state is replaced by the new roster and preamble; on any failure
the state is left untouched and no output is produced. -/
def process_excel (s : ExcState) (input : Option RawTable) :
    ExcState × Except ExcErr (DF × RawTable) × List Warn :=
  match input with
  | none => (s, Except.error ExcErr.parseError, [])
  | some df =>
    match find_header_row df required_terms with
    | none => (s, Except.error ExcErr.headerNotFound, [])
    | some k =>
      let rows_before_header := df.take k
      match df.drop k with
      | [] => (s, Except.error ExcErr.emptyRoster, [])
      | hdr :: data =>
        if data = [] then (s, Except.error ExcErr.emptyRoster, [])
        else
          let roster := buildRoster hdr data
          (⟨some roster, some rows_before_header⟩,
            Except.ok (roster, rows_before_header),
            rosterWarnings roster)

/-! Characterization lemmas for process_excel. -/

theorem process_excel_parse_failure (s : ExcState) :
    process_excel s none = (s, Except.error ExcErr.parseError, []) := rfl

theorem process_excel_header_not_found (s : ExcState) (t : RawTable)
    (h : find_header_row t required_terms = none) :
    process_excel s (some t) = (s, Except.error ExcErr.headerNotFound, []) := by
  simp [process_excel, h]

theorem process_excel_empty (s : ExcState) (t : RawTable) (k : Nat)
    (hk : find_header_row t required_terms = some k)
    (hempty : t.drop (k + 1) = []) :
    process_excel s (some t) = (s, Except.error ExcErr.emptyRoster, []) := by
  have hdrop : t.drop (k + 1) = (t.drop k).drop 1 := by
    rw [List.drop_drop]
  simp only [process_excel, hk]
  cases hd : t.drop k with
  | nil => rfl
  | cons hdr data =>
    have hdata : data = [] := by
      rw [hdrop, hd] at hempty
      simpa using hempty
    simp [hdata]

theorem process_excel_success (s : ExcState) (t : RawTable) (k : Nat)
    (hdr : List Cell) (data : List (List Cell))
    (hk : find_header_row t required_terms = some k)
    (hd : t.drop k = hdr :: data) (hne : data ≠ []) :
    process_excel s (some t) =
      (⟨some (buildRoster hdr data), some (t.take k)⟩,
        Except.ok (buildRoster hdr data, t.take k),
        rosterWarnings (buildRoster hdr data)) := by
  simp [process_excel, hk, hd, hne]

/-! Grade File Validator (process_csv). -/

/-- Fatal failures of process_csv: required columns missing (the list of
missing names is the payload) or the bytes fail to parse. -/
inductive CsvErr where
  | missingColumns (missing : List String)
  | parseError
deriving DecidableEq

/-- Anomalies reported by process_csv, in the order the source appends
them: n missing scores; a single flag for out-of-range scores; n invalid
student codes; n roster students absent from the CSV. -/
inductive Anomaly where
  | notesManquantes (n : Nat)
  | notesHorsIntervalle
  | codesInvalides (n : Nat)
  | etudiantsAbsents (n : Nat)
deriving DecidableEq

/-- Required columns of the grade file. -/
def required_columns : List String := ["A:Code", "Nom", "Prénom", "Note"]

/-- Is a cell a present numeric score outside the closed interval 0 to 20.
Missing values compare false on both sides, as NaN does in pandas. -/
def outRangeCell (c : Cell) : Bool :=
  match c with
  | Cell.num q => decide (q < 0) || decide (q > 20)
  | _ => false

/-- Size of the Python set difference set(origCol) minus
set(csvCol.dropna()).  Distinct non-missing roster values are counted once
each; every missing roster value is a distinct NaN object that never equals
a member of the right-hand set, so each one survives the difference. -/
def pyCodesDiffCount (origCol csvCol : List Cell) : Nat :=
  let csvVals := csvCol.filter (fun c => ¬ c = Cell.na)
  let origVals := (origCol.filter (fun c => ¬ c = Cell.na)).dedup
  (origVals.filter (fun c => ¬ c ∈ csvVals)).length + countNa origCol

/-- Roster cross-check of process_csv: runs only when a roster is stored
and reports the size of the Python set difference when positive. -/
def rosterCrossCheck (sod : Option DF) (csvCodes : List Cell) : List Anomaly :=
  match sod with
  | none => []
  | some orig =>
    if 0 < pyCodesDiffCount (getColByLabel orig "A:Code") csvCodes
    then [Anomaly.etudiantsAbsents
      (pyCodesDiffCount (getColByLabel orig "A:Code") csvCodes)]
    else []

/-- Anomaly list of process_csv over the coerced table, appended in source
order; the roster cross-check runs only when a roster is stored. -/
def csvAnomalies (s : ExcState) (df : DF) : List Anomaly :=
  (if 0 < countNa (getColByLabel df "Note")
    then [Anomaly.notesManquantes (countNa (getColByLabel df "Note"))] else []) ++
  (if (getColByLabel df "Note").any outRangeCell
    then [Anomaly.notesHorsIntervalle] else []) ++
  (if 0 < countNa (getColByLabel df "A:Code")
    then [Anomaly.codesInvalides (countNa (getColByLabel df "A:Code"))] else []) ++
  rosterCrossCheck s.original_data (getColByLabel df "A:Code")

/-- Grade File Validator.  Input none stands for bytes that fail delimited
parsing.  Checks required columns, coerces identifier and score columns to
numeric, and reports the anomaly battery; the session state is only read. -/
def process_csv (s : ExcState) (input : Option DF) :
    Except CsvErr (DF × List Anomaly) :=
  match input with
  | none => Except.error CsvErr.parseError
  | some df =>
    let missing := required_columns.filter (fun c => ¬ Cell.str c ∈ df.cols)
    if missing = [] then
      let df2 := coerceCol (coerceCol df "A:Code") "Note"
      Except.ok (df2, csvAnomalies s df2)
    else
      Except.error (CsvErr.missingColumns missing)

theorem process_csv_missing_columns (s : ExcState) (df : DF)
    (h : required_columns.filter (fun c => ¬ Cell.str c ∈ df.cols) ≠ []) :
    process_csv s (some df) =
      Except.error (CsvErr.missingColumns
        (required_columns.filter (fun c => ¬ Cell.str c ∈ df.cols))) := by
  simp only [process_csv]
  rw [if_neg h]

theorem process_csv_ok (s : ExcState) (df : DF)
    (h : required_columns.filter (fun c => ¬ Cell.str c ∈ df.cols) = []) :
    process_csv s (some df) =
      Except.ok (coerceCol (coerceCol df "A:Code") "Note",
        csvAnomalies s (coerceCol (coerceCol df "A:Code") "Note")) := by
  simp only [process_csv]
  rw [if_pos h]

/-! Merger (generate_final_excel). -/

/-- Cell of a row at an optional column index: missing when the index or
the cell is absent. -/
def cellAtOpt (r : List Cell) (oi : Option Nat) : Cell :=
  match oi with
  | some i => r.getD i Cell.na
  | none => Cell.na

/-- Key of a grade row in the join: its cell in the A:Code column. -/
def gradeKey (csv : DF) (cr : List Cell) : Cell :=
  cellAtOpt cr (colIdx csv "A:Code")

/-- Left join of the roster with the A:Code and Note projection of the
grade table on A:Code, as DataFrame.merge with how left: roster rows in
order; each roster row is repeated once per grade row with an equal key,
and kept once with a missing Note when no grade key equals its key.  As in
pandas, missing keys on both sides compare equal to each other. -/
def mergeLeft (orig csv : DF) : DF :=
  ⟨orig.cols ++ [Cell.str "Note"],
    orig.rows.flatMap (fun r =>
      match csv.rows.filter (fun cr =>
          decide (gradeKey csv cr = cellAtOpt r (colIdx orig "A:Code"))) with
      | [] => [r ++ [Cell.na]]
      | cr :: rest =>
        (cr :: rest).map (fun crm => r ++ [cellAtOpt crm (colIdx csv "Note")]))⟩

/-- Note carried by a roster row with key c after the left join: the Note
of the first grade row whose key equals c, or missing when none does. -/
def noteFor (csv : DF) (c : Cell) : Cell :=
  match csv.rows.filter (fun cr => decide (gradeKey csv cr = c)) with
  | [] => Cell.na
  | cr :: _ => cellAtOpt cr (colIdx csv "Note")

/-! Excel serialization model: an ordered list of single-cell writes
(row, column, value); a later write to the same coordinates wins. -/

abbrev Sheet := List (Nat × Nat × Cell)

/-- Writes of one data row: its cells left to right from column c0. -/
def rowWrites (r : Nat) (c0 : Nat) : List Cell → Sheet
  | [] => []
  | x :: xs => (r, c0, x) :: rowWrites r (c0 + 1) xs

/-- Writes of a block of rows top to bottom from row r0, column 0. -/
def writeRows (r0 : Nat) : List (List Cell) → Sheet
  | [] => []
  | row :: rest => rowWrites r0 0 row ++ writeRows (r0 + 1) rest

/-- Writes of DataFrame.to_excel with header and no index at a start row:
the column labels on the start row, then the data rows below. -/
def df_to_excel_writes (df : DF) (startrow : Nat) : Sheet :=
  writeRows startrow [df.cols] ++ writeRows (startrow + 1) df.rows

/-- Merger: left-join the stored roster with the validated grade table and
serialize preamble rows verbatim from row 0 followed by the joined table
with header at the row offset equal to the preamble length.  Returns none
when no roster or preamble is stored, or when a join or projection column
is absent (the KeyError path of the source, caught by its except branch). -/
def generate_final_excel (s : ExcState) (cleaned : DF) : Option Sheet :=
  match s.original_data, s.header_rows with
  | some orig, some pre =>
    if colIdx orig "A:Code" = none ∨ colIdx cleaned "A:Code" = none ∨
        colIdx cleaned "Note" = none then
      none
    else
      let final_df := mergeLeft orig cleaned
      some ((if pre = [] then [] else writeRows 0 pre) ++
        df_to_excel_writes final_df pre.length)
  | _, _ => none

/-- Last write to the given coordinates, if any. -/
def readCell (sh : Sheet) (r c : Nat) : Option Cell :=
  ((sh.filter (fun w => w.1 = r ∧ w.2.1 = c)).getLast?).map (fun w => w.2.2)

/-- Second option when present, first otherwise: how a later block of
writes shadows an earlier one. -/
def pickLast (a b : Option Cell) : Option Cell :=
  match b with
  | some x => some x
  | none => a

theorem readCell_append (sh1 sh2 : Sheet) (r c : Nat) :
    readCell (sh1 ++ sh2) r c = pickLast (readCell sh1 r c) (readCell sh2 r c) := by
  unfold readCell
  rw [List.filter_append]
  cases h : (sh2.filter (fun w => decide (w.1 = r ∧ w.2.1 = c))).getLast? with
  | none =>
    rw [List.getLast?_eq_none_iff] at h
    rw [h, List.append_nil]
    simp [pickLast, h]
  | some w =>
    have hne : sh2.filter (fun w => decide (w.1 = r ∧ w.2.1 = c)) ≠ [] := by
      intro hnil
      rw [hnil] at h
      exact Option.noConfusion h
    rw [List.getLast?_append_of_ne_nil _ hne, h]
    simp [pickLast]

theorem readCell_single (r c : Nat) (x : Cell) (rr cc : Nat) :
    readCell [(r, c, x)] rr cc = if r = rr ∧ c = cc then some x else none := by
  by_cases h : r = rr ∧ c = cc
  · simp [readCell, h]
  · simp only [readCell, List.filter_cons, List.filter_nil]
    rw [decide_eq_false h]
    simp only [Bool.false_eq_true, if_false, List.getLast?_nil, Option.map_none']
    rw [if_neg h]

theorem pickLast_none_right (a : Option Cell) : pickLast a none = a := rfl

theorem pickLast_none_left (b : Option Cell) : pickLast none b = b := by
  cases b <;> rfl

theorem readCell_rowWrites (r : Nat) (xs : List Cell) :
    ∀ (c0 rr cc : Nat),
      readCell (rowWrites r c0 xs) rr cc =
        if rr = r ∧ c0 ≤ cc then xs[cc - c0]? else none := by
  induction xs with
  | nil =>
    intro c0 rr cc
    simp only [rowWrites, readCell, List.filter_nil, List.getLast?_nil,
      Option.map_none']
    split <;> simp
  | cons x xs ih =>
    intro c0 rr cc
    rw [show rowWrites r c0 (x :: xs) = [(r, c0, x)] ++ rowWrites r (c0 + 1) xs
      from rfl]
    rw [readCell_append, readCell_single, ih (c0 + 1)]
    by_cases hr : rr = r
    · subst hr
      by_cases hc : c0 = cc
      · subst hc
        have h1 : ¬ (rr = rr ∧ c0 + 1 ≤ c0) := by omega
        rw [if_neg h1, pickLast_none_right, if_pos ⟨rfl, rfl⟩,
          if_pos ⟨rfl, Nat.le_refl c0⟩, Nat.sub_self]
        simp
      · by_cases hc2 : c0 + 1 ≤ cc
        · have hle : c0 ≤ cc := by omega
          rw [if_neg (by omega : ¬ (rr = rr ∧ c0 = cc)), if_pos ⟨rfl, hc2⟩,
            pickLast_none_left, if_pos ⟨rfl, hle⟩]
          have hcc : cc - c0 = (cc - (c0 + 1)) + 1 := by omega
          rw [hcc, List.getElem?_cons_succ]
        · have h1 : ¬ (rr = rr ∧ c0 = cc) := by omega
          have h2 : ¬ (rr = rr ∧ c0 + 1 ≤ cc) := by omega
          have h3 : ¬ (rr = rr ∧ c0 ≤ cc) := by omega
          rw [if_neg h1, if_neg h2, pickLast_none_right, if_neg h3]
    · have h1 : ¬ (r = rr ∧ c0 = cc) := by rintro ⟨h2, _⟩; exact hr h2.symm
      have h2 : ¬ (rr = r ∧ c0 + 1 ≤ cc) := by rintro ⟨h3, _⟩; exact hr h3
      have h3 : ¬ (rr = r ∧ c0 ≤ cc) := by rintro ⟨h4, _⟩; exact hr h4
      rw [if_neg h1, if_neg h2, pickLast_none_right, if_neg h3]

theorem readCell_writeRows (rows : List (List Cell)) :
    ∀ (r0 rr cc : Nat),
      readCell (writeRows r0 rows) rr cc =
        if r0 ≤ rr then (rows.getD (rr - r0) [])[cc]? else none := by
  induction rows with
  | nil =>
    intro r0 rr cc
    simp only [writeRows, readCell, List.filter_nil, List.getLast?_nil,
      Option.map_none']
    split <;> simp [List.getD]
  | cons row rest ih =>
    intro r0 rr cc
    rw [show writeRows r0 (row :: rest) = rowWrites r0 0 row ++ writeRows (r0 + 1) rest
      from rfl]
    rw [readCell_append, readCell_rowWrites, ih (r0 + 1)]
    by_cases hr : rr = r0
    · subst hr
      have h1 : ¬ (rr + 1 ≤ rr) := by omega
      rw [if_neg h1, pickLast_none_right, if_pos ⟨rfl, Nat.zero_le cc⟩,
        if_pos (Nat.le_refl rr), Nat.sub_self, Nat.sub_zero]
      simp [List.getD]
    · by_cases h2 : r0 + 1 ≤ rr
      · have hle : r0 ≤ rr := by omega
        have h3 : ¬ (rr = r0 ∧ 0 ≤ cc) := by rintro ⟨h4, _⟩; exact hr h4
        rw [if_neg h3, pickLast_none_left, if_pos h2, if_pos hle]
        have hd : rr - r0 = (rr - (r0 + 1)) + 1 := by omega
        rw [hd]
        simp [List.getD]
      · have h3 : ¬ (rr = r0 ∧ 0 ≤ cc) := by rintro ⟨h4, _⟩; exact hr h4
        have h4 : ¬ (r0 ≤ rr) := by omega
        rw [if_neg h3, if_neg h2, pickLast_none_right, if_neg h4]

/-! Shared inversion lemmas. -/

theorem rowHasAll_eq_false_iff (row : List Cell) (required : List String) :
    rowHasAll row required = false ↔
      ¬ ∀ term ∈ required, term ∈ row.map cellStr := by
  rw [← rowHasAll_iff]
  cases rowHasAll row required <;> simp

theorem drop_succ_of_drop_cons (t : RawTable) (k : Nat) (hdr : List Cell)
    (data : List (List Cell)) (hd : t.drop k = hdr :: data) :
    t.drop (k + 1) = data := by
  have h1 : t.drop (k + 1) = (t.drop k).drop 1 := by
    rw [List.drop_drop, Nat.add_comm]
  rw [h1, hd, List.drop_one, List.tail_cons]

/-- Every run of process_excel either fails leaving the state untouched or
succeeds replacing the whole state with the new roster and preamble. -/
theorem process_excel_anatomy (s : ExcState) (i : Option RawTable) :
    ((process_excel s i).1 = s ∧ ∃ e, (process_excel s i).2.1 = Except.error e) ∨
    (∃ roster pre, process_excel s i =
      (⟨some roster, some pre⟩, Except.ok (roster, pre), rosterWarnings roster)) := by
  cases i with
  | none => exact Or.inl ⟨rfl, ExcErr.parseError, rfl⟩
  | some t =>
    rcases hfh : find_header_row t required_terms with _ | k
    · rw [process_excel_header_not_found s t hfh]
      exact Or.inl ⟨rfl, ExcErr.headerNotFound, rfl⟩
    · rcases hd : t.drop k with _ | ⟨hdr, data⟩
      · have he : t.drop (k + 1) = [] := by
          have h1 : t.drop (k + 1) = (t.drop k).drop 1 := by
            rw [List.drop_drop, Nat.add_comm]
          rw [h1, hd, List.drop_nil]
        rw [process_excel_empty s t k hfh he]
        exact Or.inl ⟨rfl, ExcErr.emptyRoster, rfl⟩
      · by_cases hne : data = []
        · have he : t.drop (k + 1) = [] := by
            rw [drop_succ_of_drop_cons t k hdr data hd, hne]
          rw [process_excel_empty s t k hfh he]
          exact Or.inl ⟨rfl, ExcErr.emptyRoster, rfl⟩
        · rw [process_excel_success s t k hdr data hfh hd hne]
          exact Or.inr ⟨buildRoster hdr data, t.take k, rfl⟩

/-- The returned value and warnings of process_excel never depend on the
incoming session state. -/
theorem process_excel_state_indep (s s' : ExcState) (i : Option RawTable) :
    (process_excel s i).2 = (process_excel s' i).2 := by
  cases i with
  | none => rfl
  | some t =>
    rcases hfh : find_header_row t required_terms with _ | k
    · rw [process_excel_header_not_found s t hfh,
        process_excel_header_not_found s' t hfh]
    · rcases hd : t.drop k with _ | ⟨hdr, data⟩
      · have he : t.drop (k + 1) = [] := by
          have h1 : t.drop (k + 1) = (t.drop k).drop 1 := by
            rw [List.drop_drop, Nat.add_comm]
          rw [h1, hd, List.drop_nil]
        rw [process_excel_empty s t k hfh he, process_excel_empty s' t k hfh he]
      · by_cases hne : data = []
        · have he : t.drop (k + 1) = [] := by
            rw [drop_succ_of_drop_cons t k hdr data hd, hne]
          rw [process_excel_empty s t k hfh he, process_excel_empty s' t k hfh he]
        · rw [process_excel_success s t k hdr data hfh hd hne,
            process_excel_success s' t k hdr data hfh hd hne]

theorem process_csv_ok_inv (s : ExcState) (df out : DF) (anomalies : List Anomaly)
    (hok : process_csv s (some df) = Except.ok (out, anomalies)) :
    out = coerceCol (coerceCol df "A:Code") "Note" ∧
      anomalies = csvAnomalies s out := by
  simp only [process_csv] at hok
  split at hok
  · rw [Except.ok.injEq, Prod.mk.injEq] at hok
    obtain ⟨h1, h2⟩ := hok
    exact ⟨h1.symm, by rw [← h1]; exact h2.symm⟩
  · exact absurd hok (by simp)

/-! Claim C1 -/

/-- C1: for every raw table, the Header Locator returns some index i
exactly when row i exists, its cell values rendered as text contain every
marker of required_terms by exact case-sensitive comparison, and no earlier
row does; it returns the distinguished absence value none exactly when no
row qualifies, raising nothing. -/
theorem C1_header_locator (t : RawTable) :
    (∀ i, find_header_row t required_terms = some i ↔
      ((∃ row, t[i]? = some row ∧ ∀ term ∈ required_terms, term ∈ row.map cellStr) ∧
        ∀ j, j < i → ∀ prev, t[j]? = some prev →
          ¬ ∀ term ∈ required_terms, term ∈ prev.map cellStr)) ∧
    (find_header_row t required_terms = none ↔
      ∀ row ∈ t, ¬ ∀ term ∈ required_terms, term ∈ row.map cellStr) := by
  constructor
  · intro i
    rw [find_header_row_some_iff]
    constructor
    · rintro ⟨⟨row, hrow, hgood⟩, hfirst⟩
      refine ⟨⟨row, hrow, (rowHasAll_iff _ _).mp hgood⟩, ?_⟩
      intro j hj prev hprev
      exact (rowHasAll_eq_false_iff _ _).mp (hfirst j hj prev hprev)
    · rintro ⟨⟨row, hrow, hgood⟩, hfirst⟩
      refine ⟨⟨row, hrow, (rowHasAll_iff _ _).mpr hgood⟩, ?_⟩
      intro j hj prev hprev
      exact (rowHasAll_eq_false_iff _ _).mpr (hfirst j hj prev hprev)
  · rw [find_header_row_none_iff]
    constructor
    · intro h row hrow
      exact (rowHasAll_eq_false_iff _ _).mp (h row hrow)
    · intro h row hrow
      exact (rowHasAll_eq_false_iff _ _).mpr (h row hrow)

/-- Example raw spreadsheet: three preamble rows, the header row with the
three markers at index 3, then two data rows, one with an invalid code. -/
def exTable : RawTable :=
  [[Cell.str "Universite", Cell.na],
   [Cell.na, Cell.na],
   [Cell.str "Liste", Cell.str "2024"],
   [Cell.str "Code", Cell.str "Nom", Cell.str "Prénom"],
   [Cell.str "101", Cell.str "Dupont", Cell.str "Jean"],
   [Cell.str "abc", Cell.str "Martin", Cell.str "Paul"]]

/-- Example raw spreadsheet with no row containing all three markers. -/
def exTableNoHeader : RawTable :=
  [[Cell.str "Code", Cell.str "Nom"], [Cell.str "x", Cell.str "y"]]

theorem C1_header_locator_witness :
    ((∃ row, exTable[3]? = some row ∧
        ∀ term ∈ required_terms, term ∈ row.map cellStr) ∧
      ∀ j, j < 3 → ∀ prev, exTable[j]? = some prev →
        ¬ ∀ term ∈ required_terms, term ∈ prev.map cellStr) ∧
    (∀ row ∈ exTableNoHeader, ¬ ∀ term ∈ required_terms, term ∈ row.map cellStr) :=
  ⟨((C1_header_locator exTable).1 3).mp rfl,
    (C1_header_locator exTableNoHeader).2.mp rfl⟩

/-! Claim C7 -/

/-- C7: each fatal condition aborts its stage with a reported failure and
no partial output.  Header row not found and empty roster return the error
and leave the session state untouched with no warnings; missing required
grade-file columns return the error carrying the list of missing column
names; an input parse failure aborts either stage the same way. -/
theorem C7_fatal_conditions (s : ExcState) (t : RawTable) (df : DF) :
    (find_header_row t required_terms = none →
      process_excel s (some t) = (s, Except.error ExcErr.headerNotFound, [])) ∧
    (∀ k, find_header_row t required_terms = some k → t.drop (k + 1) = [] →
      process_excel s (some t) = (s, Except.error ExcErr.emptyRoster, [])) ∧
    (required_columns.filter (fun c => ¬ Cell.str c ∈ df.cols) ≠ [] →
      process_csv s (some df) = Except.error (CsvErr.missingColumns
        (required_columns.filter (fun c => ¬ Cell.str c ∈ df.cols)))) ∧
    process_excel s none = (s, Except.error ExcErr.parseError, []) ∧
    process_csv s none = Except.error CsvErr.parseError := by
  refine ⟨process_excel_header_not_found s t, ?_, ?_, rfl, rfl⟩
  · intro k hk he
    exact process_excel_empty s t k hk he
  · intro h
    exact process_csv_missing_columns s df h

/-- Grade file missing its Note column. -/
def exCsvNoNote : DF :=
  ⟨[Cell.str "A:Code", Cell.str "Nom", Cell.str "Prénom"],
   [[Cell.str "1", Cell.str "A", Cell.str "B"]]⟩

/-- Raw spreadsheet whose header row is the last row: empty after
promotion. -/
def exTableOnlyHeader : RawTable :=
  [[Cell.str "x"], [Cell.str "Code", Cell.str "Nom", Cell.str "Prénom"]]

theorem C7_fatal_conditions_witness :
    process_excel ⟨none, none⟩ (some exTableNoHeader) =
      (⟨none, none⟩, Except.error ExcErr.headerNotFound, []) ∧
    process_excel ⟨none, none⟩ (some exTableOnlyHeader) =
      (⟨none, none⟩, Except.error ExcErr.emptyRoster, []) ∧
    process_csv ⟨none, none⟩ (some exCsvNoNote) =
      Except.error (CsvErr.missingColumns ["Note"]) := by
  refine ⟨(C7_fatal_conditions ⟨none, none⟩ exTableNoHeader exCsvNoNote).1 rfl,
    (C7_fatal_conditions ⟨none, none⟩ exTableOnlyHeader exCsvNoNote).2.1 1 rfl rfl,
    ?_⟩
  have h := (C7_fatal_conditions ⟨none, none⟩ exTableNoHeader exCsvNoNote).2.2.1
    (by decide)
  rw [h]
  rfl

/-! Claim C10 -/

/-- C10: the Roster Normalizer touches the session state only on success:
every failing run (parse failure, header not found, empty roster) returns
with the previously stored roster and preamble unchanged, and a successful
run replaces the whole state with exactly the returned roster and
preamble. -/
theorem C10_state_update_atomic (s : ExcState) (i : Option RawTable) :
    (∀ e, (process_excel s i).2.1 = Except.error e → (process_excel s i).1 = s) ∧
    (∀ roster pre, (process_excel s i).2.1 = Except.ok (roster, pre) →
      (process_excel s i).1 = ⟨some roster, some pre⟩) := by
  rcases process_excel_anatomy s i with ⟨hstate, e, herr⟩ | ⟨roster, pre, heq⟩
  · constructor
    · intro _ _
      exact hstate
    · intro roster pre hok
      rw [herr] at hok
      exact absurd hok (by simp)
  · constructor
    · intro e herr
      rw [heq] at herr
      exact absurd herr (by simp)
    · intro roster2 pre2 hok
      rw [heq] at hok ⊢
      simp only [Except.ok.injEq, Prod.mk.injEq] at hok
      simp [hok.1, hok.2]

/-- State holding a previously stored roster and preamble. -/
def exStoredState : ExcState :=
  ⟨some ⟨[Cell.str "A:Code"], [[Cell.num 7]]⟩, some [[Cell.str "old"]]⟩

theorem C10_state_update_atomic_witness :
    (process_excel exStoredState (some exTableNoHeader)).1 = exStoredState ∧
    (process_excel exStoredState none).1 = exStoredState ∧
    (process_excel exStoredState (some exTable)).1 =
      ⟨(process_excel exStoredState (some exTable)).2.1.toOption.map Prod.fst,
        (process_excel exStoredState (some exTable)).2.1.toOption.map Prod.snd⟩ := by
  refine ⟨(C10_state_update_atomic exStoredState (some exTableNoHeader)).1
      ExcErr.headerNotFound rfl,
    (C10_state_update_atomic exStoredState none).1 ExcErr.parseError rfl, ?_⟩
  have h := (C10_state_update_atomic exStoredState (some exTable)).2
    (buildRoster [Cell.str "A:Code", Cell.str "Nom", Cell.str "Prénom"]
      [[Cell.str "101", Cell.str "Dupont", Cell.str "Jean"],
       [Cell.str "abc", Cell.str "Martin", Cell.str "Paul"]])
    (exTable.take 3) rfl
  rw [h]
  rfl

/-! Claim C8 -/

/-- C8: the Roster Normalizer is idempotent and deterministic over the
session: rerunning it on the same parsed input from the state its first
run left behind returns the identical full result, and in particular a
successful run rerun from its own stored state returns the identical
roster, preamble and warnings with the state unchanged. -/
theorem C8_idempotent (s : ExcState) (i : Option RawTable) :
    process_excel ((process_excel s i).1) i = process_excel s i ∧
    (∀ st2 roster pre w,
      process_excel s i = (st2, Except.ok (roster, pre), w) →
      process_excel st2 i = (st2, Except.ok (roster, pre), w)) := by
  have hmain : process_excel ((process_excel s i).1) i = process_excel s i := by
    rcases process_excel_anatomy s i with ⟨hstate, e, herr⟩ | ⟨roster, pre, heq⟩
    · rw [hstate]
    · rw [heq]
      have hres := process_excel_state_indep
        (⟨some roster, some pre⟩ : ExcState) s i
      rw [heq] at hres
      rcases process_excel_anatomy (⟨some roster, some pre⟩ : ExcState) i with
        ⟨hst2, e2, herr2⟩ | ⟨r2, p2, heq2⟩
      · rw [hres] at herr2
        exact absurd herr2 (by simp)
      · rw [heq2] at hres ⊢
        simp only [Prod.mk.injEq, Except.ok.injEq] at hres
        obtain ⟨⟨hr, hp⟩, hw⟩ := hres
        rw [hr, hp]
  refine ⟨hmain, ?_⟩
  intro st2 roster pre w heq
  have h1 : (process_excel s i).1 = st2 := by rw [heq]
  rw [← h1, hmain, heq]

theorem C8_idempotent_witness :
    process_excel ((process_excel ⟨none, none⟩ (some exTable)).1) (some exTable) =
      process_excel ⟨none, none⟩ (some exTable) ∧
    process_excel ⟨some (buildRoster [Cell.str "A:Code", Cell.str "Nom", Cell.str "Prénom"]
        [[Cell.str "101", Cell.str "Dupont", Cell.str "Jean"],
         [Cell.str "abc", Cell.str "Martin", Cell.str "Paul"]]),
        some (exTable.take 3)⟩ (some exTable) =
      (⟨some (buildRoster [Cell.str "A:Code", Cell.str "Nom", Cell.str "Prénom"]
        [[Cell.str "101", Cell.str "Dupont", Cell.str "Jean"],
         [Cell.str "abc", Cell.str "Martin", Cell.str "Paul"]]),
        some (exTable.take 3)⟩,
        Except.ok (buildRoster [Cell.str "A:Code", Cell.str "Nom", Cell.str "Prénom"]
          [[Cell.str "101", Cell.str "Dupont", Cell.str "Jean"],
           [Cell.str "abc", Cell.str "Martin", Cell.str "Paul"]], exTable.take 3),
        [Warn.invalidCodes 1]) :=
  ⟨(C8_idempotent ⟨none, none⟩ (some exTable)).1,
    (C8_idempotent ⟨none, none⟩ (some exTable)).2 _ _ _ _ rfl⟩

/-! Claim C2 -/

theorem flatMap_eq_map_of_singleton {α β : Type} (l : List α) (g : α → List β)
    (f : α → β) (h : ∀ x ∈ l, g x = [f x]) : l.flatMap g = l.map f := by
  induction l with
  | nil => rfl
  | cons x xs ih =>
    rw [List.flatMap_cons, h x (List.mem_cons_self x xs),
      ih (fun y hy => h y (List.mem_cons_of_mem x hy))]
    rfl

theorem filter_key_unique (csv : DF) (c : Cell)
    (hnd : (csv.rows.map (gradeKey csv)).Nodup) :
    csv.rows.filter (fun cr => decide (gradeKey csv cr = c)) = [] ∨
    ∃ cr, csv.rows.filter (fun cr => decide (gradeKey csv cr = c)) = [cr] := by
  rcases hf : csv.rows.filter (fun cr => decide (gradeKey csv cr = c)) with
    _ | ⟨cr1, rest⟩
  · exact Or.inl rfl
  · rcases hr : rest with _ | ⟨cr2, rest2⟩
    · exact Or.inr ⟨cr1, rfl⟩
    · exfalso
      subst hr
      have hsub : (cr1 :: cr2 :: rest2).Sublist csv.rows := by
        rw [← hf]
        exact List.filter_sublist csv.rows
      have hnd2 : ((cr1 :: cr2 :: rest2).map (gradeKey csv)).Nodup :=
        (hsub.map (gradeKey csv)).nodup hnd
      have h1 : gradeKey csv cr1 = c := by
        have := List.of_mem_filter (p := fun cr => decide (gradeKey csv cr = c))
          (hf ▸ List.mem_cons_self cr1 (cr2 :: rest2))
        exact of_decide_eq_true this
      have h2 : gradeKey csv cr2 = c := by
        have := List.of_mem_filter (p := fun cr => decide (gradeKey csv cr = c))
          (hf ▸ List.mem_cons_of_mem cr1 (List.mem_cons_self cr2 rest2))
        exact of_decide_eq_true this
      rw [List.map_cons, List.map_cons, List.nodup_cons] at hnd2
      exact hnd2.1 (by rw [h1, ← h2]; exact List.mem_cons_self _ _)

theorem noteFor_eq_na (csv : DF) (c : Cell)
    (h : ∀ cr ∈ csv.rows, gradeKey csv cr ≠ c) :
    noteFor csv c = Cell.na := by
  unfold noteFor
  have hf : csv.rows.filter (fun cr => decide (gradeKey csv cr = c)) = [] := by
    rw [List.filter_eq_nil_iff]
    intro cr hcr
    simpa using h cr hcr
  rw [hf]

theorem noteFor_eq_of_mem (csv : DF) (c : Cell) (cr : List Cell)
    (hnd : (csv.rows.map (gradeKey csv)).Nodup)
    (hmem : cr ∈ csv.rows) (hkey : gradeKey csv cr = c) :
    noteFor csv c = cellAtOpt cr (colIdx csv "Note") := by
  unfold noteFor
  have hin : cr ∈ csv.rows.filter (fun cr => decide (gradeKey csv cr = c)) :=
    List.mem_filter.mpr ⟨hmem, decide_eq_true hkey⟩
  rcases filter_key_unique csv c hnd with hf | ⟨cr2, hf⟩
  · rw [hf] at hin
    exact absurd hin (List.not_mem_nil cr)
  · rw [hf] at hin
    rw [List.mem_singleton] at hin
    show (match csv.rows.filter (fun cr => decide (gradeKey csv cr = c)) with
      | [] => Cell.na
      | cr :: _ => cellAtOpt cr (colIdx csv "Note")) = _
    rw [hf, hin]

theorem mergeLeft_rows_eq (orig csv : DF)
    (hnd : (csv.rows.map (gradeKey csv)).Nodup) :
    (mergeLeft orig csv).rows =
      orig.rows.map (fun r =>
        r ++ [noteFor csv (cellAtOpt r (colIdx orig "A:Code"))]) := by
  show orig.rows.flatMap _ = _
  apply flatMap_eq_map_of_singleton
  intro r _
  unfold noteFor
  rcases filter_key_unique csv (cellAtOpt r (colIdx orig "A:Code")) hnd with
    hf | ⟨cr, hf⟩
  · rw [hf]
  · rw [hf]
    rfl

/-- C2: for every roster and every grade table whose identifiers are
pairwise distinct non-missing numbers drawn from the roster identifiers,
the left join has exactly one output row per roster row in order: a roster
row whose identifier equals some grade key carries that grade row's Note
and a roster row matching no grade key carries a missing Note.  No
hypothesis constrains the Note values, so anomalies such as out-of-range
scores never prevent the merge. -/
theorem C2_merge_round_trip (orig csv : DF)
    (hnd : (csv.rows.map (gradeKey csv)).Nodup)
    (_hsub : ∀ cr ∈ csv.rows, ∃ q : ℚ, gradeKey csv cr = Cell.num q ∧
      Cell.num q ∈ orig.rows.map (fun r => cellAtOpt r (colIdx orig "A:Code"))) :
    (mergeLeft orig csv).rows.length = orig.rows.length ∧
    ∀ (i : Nat) (r : List Cell), orig.rows[i]? = some r →
      ((mergeLeft orig csv).rows[i]? =
        some (r ++ [noteFor csv (cellAtOpt r (colIdx orig "A:Code"))]) ∧
      (∀ cr ∈ csv.rows,
        gradeKey csv cr = cellAtOpt r (colIdx orig "A:Code") →
        noteFor csv (cellAtOpt r (colIdx orig "A:Code")) =
          cellAtOpt cr (colIdx csv "Note")) ∧
      ((∀ cr ∈ csv.rows,
        gradeKey csv cr ≠ cellAtOpt r (colIdx orig "A:Code")) →
        noteFor csv (cellAtOpt r (colIdx orig "A:Code")) = Cell.na)) := by
  have hrows := mergeLeft_rows_eq orig csv hnd
  refine ⟨by rw [hrows, List.length_map], ?_⟩
  intro i r hir
  refine ⟨?_, ?_, ?_⟩
  · rw [hrows, List.getElem?_map, hir]
    rfl
  · intro cr hcr hk
    exact noteFor_eq_of_mem csv _ cr hnd hcr hk
  · intro hnone
    exact noteFor_eq_na csv _ hnone

/-- Example roster for the merge claims: three students. -/
def exRosterM : DF :=
  ⟨[Cell.str "A:Code", Cell.str "Nom"],
   [[Cell.num 1, Cell.str "Dupont"],
    [Cell.num 2, Cell.str "Martin"],
    [Cell.num 3, Cell.str "Durand"]]⟩

/-- Example validated grade table: scores for students 1 and 2 only, with
an out-of-range score of 22 for student 2. -/
def exGradesM : DF :=
  ⟨[Cell.str "A:Code", Cell.str "Nom", Cell.str "Prénom", Cell.str "Note"],
   [[Cell.num 1, Cell.str "A", Cell.str "B", Cell.num 15],
    [Cell.num 2, Cell.str "C", Cell.str "D", Cell.num 22]]⟩

theorem C2_merge_round_trip_witness :
    (mergeLeft exRosterM exGradesM).rows.length = exRosterM.rows.length ∧
    (mergeLeft exRosterM exGradesM).rows[1]? =
      some [Cell.num 2, Cell.str "Martin", Cell.num 22] ∧
    (mergeLeft exRosterM exGradesM).rows[2]? =
      some [Cell.num 3, Cell.str "Durand", Cell.na] := by
  have h := C2_merge_round_trip exRosterM exGradesM (by decide)
    (by
      intro cr hcr
      simp only [exGradesM, List.mem_cons, List.not_mem_nil, or_false] at hcr
      rcases hcr with rfl | rfl
      · exact ⟨1, rfl, by decide⟩
      · exact ⟨2, rfl, by decide⟩)
  refine ⟨h.1, ?_, ?_⟩
  · exact ((h.2 1 [Cell.num 2, Cell.str "Martin"] rfl).1).trans (by decide)
  · exact ((h.2 2 [Cell.num 3, Cell.str "Durand"] rfl).1).trans (by decide)

/-! Claim C3 -/

theorem generate_final_excel_inv (orig : DF) (pre : RawTable) (cleaned : DF)
    (sh : Sheet) (h : generate_final_excel ⟨some orig, some pre⟩ cleaned = some sh) :
    sh = writeRows 0 pre ++
      (writeRows pre.length [(mergeLeft orig cleaned).cols] ++
        writeRows (pre.length + 1) (mergeLeft orig cleaned).rows) := by
  simp only [generate_final_excel, df_to_excel_writes] at h
  split at h
  · exact absurd h (by simp)
  · rw [Option.some.injEq] at h
    rw [← h]
    by_cases hpre : pre = []
    · rw [if_pos hpre, hpre]
      rfl
    · rw [if_neg hpre]

/-- C3: the final export writes the stored preamble verbatim on output
rows 0 through k-1 (k the preamble length, no header and no index added),
writes the joined table's column labels exactly on row k, and writes its
data rows from row k+1 on, each cell at the column of its position; no
other cell of those regions is touched. -/
theorem C3_export_layout (orig : DF) (pre : RawTable) (cleaned : DF) (sh : Sheet)
    (h : generate_final_excel ⟨some orig, some pre⟩ cleaned = some sh) :
    (∀ i j, i < pre.length → readCell sh i j = (pre.getD i [])[j]?) ∧
    (∀ j, readCell sh pre.length j = (mergeLeft orig cleaned).cols[j]?) ∧
    (∀ i j, readCell sh (pre.length + 1 + i) j =
      ((mergeLeft orig cleaned).rows.getD i [])[j]?) := by
  obtain rfl := generate_final_excel_inv orig pre cleaned sh h
  refine ⟨?_, ?_, ?_⟩
  · intro i j hi
    rw [readCell_append, readCell_append, readCell_writeRows, readCell_writeRows,
      readCell_writeRows]
    rw [if_neg (by omega : ¬ pre.length ≤ i), if_neg (by omega : ¬ pre.length + 1 ≤ i),
      if_pos (Nat.zero_le i), Nat.sub_zero]
    rfl
  · intro j
    rw [readCell_append, readCell_append, readCell_writeRows, readCell_writeRows,
      readCell_writeRows]
    rw [if_neg (by omega : ¬ pre.length + 1 ≤ pre.length),
      if_pos (Nat.le_refl pre.length), if_pos (Nat.zero_le pre.length),
      Nat.sub_zero, Nat.sub_self]
    have hpre : pre.getD pre.length [] = [] :=
      List.getD_eq_default pre [] (Nat.le_refl pre.length)
    rw [hpre]
    show pickLast (pickLast none ((mergeLeft orig cleaned).cols[j]?)) none = _
    rw [pickLast_none_right, pickLast_none_left]
  · intro i j
    rw [readCell_append, readCell_append, readCell_writeRows, readCell_writeRows,
      readCell_writeRows]
    rw [if_pos (by omega : pre.length + 1 ≤ pre.length + 1 + i),
      if_pos (by omega : pre.length ≤ pre.length + 1 + i),
      if_pos (Nat.zero_le (pre.length + 1 + i)), Nat.sub_zero]
    have h1 : pre.getD (pre.length + 1 + i) [] = [] :=
      List.getD_eq_default pre [] (by omega)
    have h2 : pre.length + 1 + i - pre.length = i + 1 := by omega
    have h3 : pre.length + 1 + i - (pre.length + 1) = i := by omega
    have h4 : [(mergeLeft orig cleaned).cols].getD (i + 1) [] = [] :=
      List.getD_eq_default _ [] (by simp)
    rw [h1, h2, h3, h4]
    simp only [List.getElem?_nil, pickLast_none_left]

/-- Example preamble of three rows for the export claim. -/
def exPreM : RawTable :=
  [[Cell.str "Universite", Cell.na],
   [Cell.na, Cell.na],
   [Cell.str "Liste", Cell.str "2024"]]

/-- Sheet produced by the Merger on the example roster, grades and
preamble. -/
def exSheetM : Sheet :=
  (generate_final_excel ⟨some exRosterM, some exPreM⟩ exGradesM).getD []

theorem C3_export_layout_witness :
    readCell exSheetM 0 0 = some (Cell.str "Universite") ∧
    readCell exSheetM 2 1 = some (Cell.str "2024") ∧
    readCell exSheetM 3 0 = some (Cell.str "A:Code") ∧
    readCell exSheetM 3 2 = some (Cell.str "Note") ∧
    readCell exSheetM 4 0 = some (Cell.num 1) ∧
    readCell exSheetM 5 2 = some (Cell.num 22) ∧
    readCell exSheetM 6 2 = some Cell.na := by
  have h := C3_export_layout exRosterM exPreM exGradesM exSheetM rfl
  refine ⟨?_, ?_, ?_, ?_, ?_, ?_, ?_⟩
  · exact (h.1 0 0 (by decide)).trans (by decide)
  · exact (h.1 2 1 (by decide)).trans (by decide)
  · exact (h.2.1 0).trans (by decide)
  · exact (h.2.1 2).trans (by decide)
  · exact (h.2.2 0 0).trans (by decide)
  · exact (h.2.2 1 2).trans (by decide)
  · exact (h.2.2 2 2).trans (by decide)

/-! Claims C4, C5, C9: the anomaly battery. -/

theorem any_outRange_iff (notes : List Cell) :
    notes.any outRangeCell = true ↔
      ∃ q : ℚ, Cell.num q ∈ notes ∧ (q < 0 ∨ 20 < q) := by
  rw [List.any_eq_true]
  constructor
  · rintro ⟨c, hc, hout⟩
    cases c with
    | num q =>
      refine ⟨q, hc, ?_⟩
      simpa [outRangeCell] using hout
    | str u => simp [outRangeCell] at hout
    | na => simp [outRangeCell] at hout
  · rintro ⟨q, hq, hcase⟩
    refine ⟨Cell.num q, hq, ?_⟩
    simpa [outRangeCell] using hcase

/-- C9: the out-of-range anomaly flag is raised exactly when some present
numeric score is strictly below 0 or strictly above 20; scores that are
missing (originally absent or coerced to missing) never raise it, so a
missing score is reported only by the missing-score count. -/
theorem C9_missing_scores_never_out_of_range (s : ExcState) (df out : DF)
    (anomalies : List Anomaly)
    (hok : process_csv s (some df) = Except.ok (out, anomalies)) :
    (Anomaly.notesHorsIntervalle ∈ anomalies ↔
      ∃ q : ℚ, Cell.num q ∈ getColByLabel out "Note" ∧ (q < 0 ∨ 20 < q)) := by
  obtain ⟨hout, hanom⟩ := process_csv_ok_inv s df out anomalies hok
  rw [hanom, ← any_outRange_iff]
  unfold csvAnomalies
  simp only [List.mem_append]
  constructor
  · rintro (((h | h) | h) | h)
    · split at h <;> simp at h
    · split at h
      · next h2 => exact h2
      · simp at h
    · split at h <;> simp at h
    · rcases hso : s.original_data with _ | orig <;> rw [hso] at h <;>
        simp only [rosterCrossCheck] at h
      · simp at h
      · split at h <;> simp at h
  · intro h2
    refine Or.inl (Or.inl (Or.inr ?_))
    rw [if_pos h2]
    exact List.mem_singleton_self _

/-- Grade file whose coerced table has one missing score and only missing
scores: parsed from one unparsable score text. -/
def exCsvOnlyMissing : DF :=
  ⟨[Cell.str "A:Code", Cell.str "Nom", Cell.str "Prénom", Cell.str "Note"],
   [[Cell.str "1", Cell.str "A", Cell.str "B", Cell.str "absent"]]⟩

theorem C9_missing_scores_never_out_of_range_witness :
    ¬ Anomaly.notesHorsIntervalle ∈
      (csvAnomalies ⟨none, none⟩
        (coerceCol (coerceCol exCsvOnlyMissing "A:Code") "Note")) := by
  intro hmem
  obtain ⟨q, hq, _⟩ := (C9_missing_scores_never_out_of_range ⟨none, none⟩
    exCsvOnlyMissing (coerceCol (coerceCol exCsvOnlyMissing "A:Code") "Note")
    (csvAnomalies ⟨none, none⟩
      (coerceCol (coerceCol exCsvOnlyMissing "A:Code") "Note")) rfl).mp hmem
  rw [show getColByLabel (coerceCol (coerceCol exCsvOnlyMissing "A:Code") "Note")
    "Note" = [Cell.na] from rfl] at hq
  simp at hq

/-- C4: whenever the coerced grade table has exactly one missing score,
contains the score 21, has no missing identifier, and exactly one stored
roster identifier is absent from the grade file, the anomaly list is
exactly the three entries in source order: a missing-score count of one,
the bare out-of-range flag, and an absent-identifier count of one. -/
theorem C4_three_anomalies (s : ExcState) (orig df out : DF)
    (anomalies : List Anomaly)
    (hroster : s.original_data = some orig)
    (hok : process_csv s (some df) = Except.ok (out, anomalies))
    (h1 : countNa (getColByLabel out "Note") = 1)
    (h21 : Cell.num 21 ∈ getColByLabel out "Note")
    (h3 : countNa (getColByLabel out "A:Code") = 0)
    (h4 : pyCodesDiffCount (getColByLabel orig "A:Code")
      (getColByLabel out "A:Code") = 1) :
    anomalies = [Anomaly.notesManquantes 1, Anomaly.notesHorsIntervalle,
      Anomaly.etudiantsAbsents 1] := by
  obtain ⟨hout, hanom⟩ := process_csv_ok_inv s df out anomalies hok
  have hflag : (getColByLabel out "Note").any outRangeCell = true :=
    (any_outRange_iff _).mpr ⟨21, h21, Or.inr (by norm_num)⟩
  rw [hanom]
  unfold csvAnomalies
  rw [hroster]
  simp only [rosterCrossCheck]
  rw [h1, h3, h4, hflag]
  norm_num

/-- Stored roster for the C4 scenario: students 1, 2, 3. -/
def exRoster4 : DF :=
  ⟨[Cell.str "A:Code", Cell.str "Nom"],
   [[Cell.num 1, Cell.str "Dupont"],
    [Cell.num 2, Cell.str "Martin"],
    [Cell.num 3, Cell.str "Durand"]]⟩

/-- Grade file for the C4 scenario: a missing score for student 1, a score
of 21 for student 2, and no row for student 3. -/
def exCsv4 : DF :=
  ⟨[Cell.str "A:Code", Cell.str "Nom", Cell.str "Prénom", Cell.str "Note"],
   [[Cell.str "1", Cell.str "A", Cell.str "B", Cell.str ""],
    [Cell.str "2", Cell.str "C", Cell.str "D", Cell.str "21"]]⟩

theorem C4_three_anomalies_witness :
    csvAnomalies ⟨some exRoster4, some []⟩
        (coerceCol (coerceCol exCsv4 "A:Code") "Note") =
      [Anomaly.notesManquantes 1, Anomaly.notesHorsIntervalle,
        Anomaly.etudiantsAbsents 1] :=
  C4_three_anomalies ⟨some exRoster4, some []⟩ exRoster4 exCsv4
    (coerceCol (coerceCol exCsv4 "A:Code") "Note")
    (csvAnomalies ⟨some exRoster4, some []⟩
      (coerceCol (coerceCol exCsv4 "A:Code") "Note"))
    rfl rfl (by decide) (by decide) (by decide) (by decide)

/-! Claim C5: corrected.  The source computes
set(original_data[A:Code]) - set(df[A:Code].dropna()): missing values are
dropped only on the grade-file side, so every missing roster identifier
survives the set difference (NaN equals nothing) and inflates the reported
count. -/

/-- Roster whose single row has a missing identifier. -/
def exRosterNaCode : DF :=
  ⟨[Cell.str "A:Code", Cell.str "Nom"], [[Cell.na, Cell.str "X"]]⟩

/-- Well-formed grade file covering every non-missing roster identifier
(there are none). -/
def exCsv5 : DF :=
  ⟨[Cell.str "A:Code", Cell.str "Nom", Cell.str "Prénom", Cell.str "Note"],
   [[Cell.str "1", Cell.str "A", Cell.str "B", Cell.str "10"]]⟩

/-- C5 counterexample: the roster's non-missing identifier set is empty,
so the set difference over non-missing identifier values on both sides is
empty and the claim demands no absent-identifier anomaly; the code still
reports an absent-identifier count of 1, fed by the missing roster
identifier. -/
theorem C5_counterexample :
    ((getColByLabel exRosterNaCode "A:Code").filter
      (fun c => ¬ c = Cell.na) = []) ∧
    process_csv ⟨some exRosterNaCode, some []⟩ (some exCsv5) =
      Except.ok (coerceCol (coerceCol exCsv5 "A:Code") "Note",
        [Anomaly.etudiantsAbsents 1]) := by
  constructor
  · decide
  · rfl

/-- C5 as amended: with a stored roster, the absent-identifier anomaly is
reported with count n exactly when n is positive and n equals the number
of distinct non-missing roster identifiers absent from the grade file's
non-missing identifiers plus the number of roster rows with a missing
identifier — each missing roster identifier contributes one, because the
source drops missing values only on the grade-file side of the set
difference. -/
theorem C5_absent_identifier_count (s : ExcState) (orig df out : DF)
    (anomalies : List Anomaly)
    (hroster : s.original_data = some orig)
    (hok : process_csv s (some df) = Except.ok (out, anomalies)) :
    ∀ n, Anomaly.etudiantsAbsents n ∈ anomalies ↔
      (0 < n ∧
        n = (((getColByLabel orig "A:Code").filter
            (fun c => ¬ c = Cell.na)).dedup.filter
            (fun c => ¬ c ∈ (getColByLabel out "A:Code").filter
              (fun c => ¬ c = Cell.na))).length
          + countNa (getColByLabel orig "A:Code")) := by
  obtain ⟨hout, hanom⟩ := process_csv_ok_inv s df out anomalies hok
  intro n
  rw [hanom]
  unfold csvAnomalies
  rw [hroster]
  simp only [rosterCrossCheck, List.mem_append]
  have hdiff : pyCodesDiffCount (getColByLabel orig "A:Code")
      (getColByLabel out "A:Code") =
      (((getColByLabel orig "A:Code").filter
          (fun c => ¬ c = Cell.na)).dedup.filter
          (fun c => ¬ c ∈ (getColByLabel out "A:Code").filter
            (fun c => ¬ c = Cell.na))).length
        + countNa (getColByLabel orig "A:Code") := rfl
  constructor
  · rintro (((h | h) | h) | h)
    · split at h <;> simp at h
    · split at h <;> simp at h
    · split at h <;> simp at h
    · split at h
      · next hpos =>
        rw [List.mem_singleton] at h
        injection h with h
        subst h
        exact ⟨hpos, hdiff⟩
      · simp at h
  · rintro ⟨hpos, hn⟩
    refine Or.inr ?_
    rw [show pyCodesDiffCount (getColByLabel orig "A:Code")
        (getColByLabel out "A:Code") = n from hdiff.trans hn.symm, if_pos hpos]
    exact List.mem_singleton_self _

theorem C5_absent_identifier_count_witness :
    Anomaly.etudiantsAbsents 1 ∈
      csvAnomalies ⟨some exRosterNaCode, some []⟩
        (coerceCol (coerceCol exCsv5 "A:Code") "Note") :=
  (C5_absent_identifier_count ⟨some exRosterNaCode, some []⟩ exRosterNaCode
    exCsv5 (coerceCol (coerceCol exCsv5 "A:Code") "Note")
    (csvAnomalies ⟨some exRosterNaCode, some []⟩
      (coerceCol (coerceCol exCsv5 "A:Code") "Note"))
    rfl rfl 1).mpr (by decide)

/-! Claim C6: column coercion lemmas. -/

theorem findIdxq_some_spec {α : Type} (p : α → Bool) :
    ∀ (l : List α) (n i : Nat), List.findIdx? p l n = some i →
      n ≤ i ∧ ∃ x, l[i - n]? = some x ∧ p x = true := by
  intro l
  induction l with
  | nil => intro n i h; simp [List.findIdx?] at h
  | cons x xs ih =>
    intro n i h
    rw [List.findIdx?_cons] at h
    by_cases hp : p x = true
    · rw [if_pos hp] at h
      injection h with h
      subst h
      exact ⟨Nat.le_refl n, x, by simp, hp⟩
    · rw [if_neg hp] at h
      obtain ⟨hle, y, hy, hpy⟩ := ih (n + 1) i h
      refine ⟨by omega, y, ?_, hpy⟩
      have hd : i - n = (i - (n + 1)) + 1 := by omega
      rw [hd, List.getElem?_cons_succ]
      exact hy

theorem colIdx_some_spec (df : DF) (l : String) (i : Nat)
    (h : colIdx df l = some i) : df.cols[i]? = some (Cell.str l) := by
  obtain ⟨-, x, hx, hp⟩ := findIdxq_some_spec _ df.cols 0 i h
  rw [Nat.sub_zero] at hx
  rw [hx, of_decide_eq_true hp]

theorem coerceCol_cols (df : DF) (l : String) : (coerceCol df l).cols = df.cols := by
  unfold coerceCol
  cases h : colIdx df l <;> rfl

theorem colIdx_coerceCol (df : DF) (l l2 : String) :
    colIdx (coerceCol df l2) l = colIdx df l := by
  unfold colIdx
  rw [coerceCol_cols]

theorem set_getD_self (r : List Cell) (i : Nat) (v : Cell) :
    (r.set i v).getD i Cell.na = if i < r.length then v else Cell.na := by
  rw [List.getD_eq_getElem?_getD, List.getElem?_set]
  by_cases hi : i < r.length
  · simp [hi]
  · simp [hi]

theorem set_getD_ne (r : List Cell) (i j : Nat) (v : Cell) (h : j ≠ i) :
    (r.set j v).getD i Cell.na = r.getD i Cell.na := by
  rw [List.getD_eq_getElem?_getD, List.getElem?_set_ne h,
    ← List.getD_eq_getElem?_getD]

theorem getColByLabel_coerceCol_self (df : DF) (l : String) :
    getColByLabel (coerceCol df l) l = (getColByLabel df l).map toNum := by
  cases h : colIdx df l with
  | none =>
    have hco : coerceCol df l = df := by
      unfold coerceCol
      rw [h]
    rw [hco]
    unfold getColByLabel
    rw [h]
    rfl
  | some i =>
    have hco : coerceCol df l =
        ⟨df.cols, df.rows.map (fun r => r.set i (toNum (r.getD i Cell.na)))⟩ := by
      unfold coerceCol
      rw [h]
    have hc2 : colIdx (⟨df.cols,
        df.rows.map (fun r => r.set i (toNum (r.getD i Cell.na)))⟩ : DF) l =
        some i := h
    rw [hco]
    simp only [getColByLabel, hc2, h, List.map_map]
    apply List.map_congr_left
    intro r _
    simp only [Function.comp_apply]
    rw [set_getD_self]
    by_cases hi : i < r.length
    · rw [if_pos hi]
    · rw [if_neg hi]
      have hr : r.getD i Cell.na = Cell.na :=
        List.getD_eq_default r Cell.na (by omega)
      rw [hr]
      rfl

theorem colIdx_ne_of_label_ne (df : DF) (l1 l2 : String) (i j : Nat)
    (hne : l1 ≠ l2) (h1 : colIdx df l1 = some i) (h2 : colIdx df l2 = some j) :
    i ≠ j := by
  intro heq
  have hx1 := colIdx_some_spec df l1 i h1
  have hx2 := colIdx_some_spec df l2 j h2
  rw [heq, hx2] at hx1
  injection hx1 with hx
  injection hx with hx
  exact hne hx.symm

theorem getColByLabel_coerceCol_ne (df : DF) (l1 l2 : String) (hne : l1 ≠ l2) :
    getColByLabel (coerceCol df l2) l1 = getColByLabel df l1 := by
  cases h2 : colIdx df l2 with
  | none =>
    have hco : coerceCol df l2 = df := by
      unfold coerceCol
      rw [h2]
    rw [hco]
  | some j =>
    have hco : coerceCol df l2 =
        ⟨df.cols, df.rows.map (fun r => r.set j (toNum (r.getD j Cell.na)))⟩ := by
      unfold coerceCol
      rw [h2]
    rw [hco]
    cases h1 : colIdx df l1 with
    | none =>
      have hc1 : colIdx (⟨df.cols,
          df.rows.map (fun r => r.set j (toNum (r.getD j Cell.na)))⟩ : DF) l1 =
          none := h1
      simp only [getColByLabel, hc1, h1]
    | some i =>
      have hc1 : colIdx (⟨df.cols,
          df.rows.map (fun r => r.set j (toNum (r.getD j Cell.na)))⟩ : DF) l1 =
          some i := h1
      have hij : i ≠ j := colIdx_ne_of_label_ne df l1 l2 i j hne h1 h2
      simp only [getColByLabel, hc1, h1, List.map_map]
      apply List.map_congr_left
      intro r _
      simp only [Function.comp_apply]
      exact set_getD_ne r i j _ (Ne.symm hij)

theorem toNum_shape (c : Cell) : toNum c = Cell.na ∨ ∃ q : ℚ, toNum c = Cell.num q := by
  cases c with
  | na => exact Or.inl rfl
  | num q => exact Or.inr ⟨q, rfl⟩
  | str u =>
    cases hp : parseNum u with
    | none => exact Or.inl (by simp [toNum, hp])
    | some q => exact Or.inr ⟨q, by simp [toNum, hp]⟩

theorem mem_rosterCrossCheck (sod : Option DF) (codes : List Cell) (a : Anomaly)
    (h : a ∈ rosterCrossCheck sod codes) :
    ∃ m, a = Anomaly.etudiantsAbsents m := by
  cases sod <;> simp only [rosterCrossCheck] at h
  · simp at h
  · split at h
    · rw [List.mem_singleton] at h
      exact ⟨_, h⟩
    · simp at h

/-- Successful process_excel runs produce the roster built from the
promoted header and its data rows, and the matching warnings. -/
theorem process_excel_ok_inv (s st2 : ExcState) (t : RawTable) (roster : DF)
    (pre : RawTable) (warns : List Warn)
    (heq : process_excel s (some t) = (st2, Except.ok (roster, pre), warns)) :
    (∃ hdr data, roster = buildRoster hdr data) ∧ warns = rosterWarnings roster := by
  rcases hfh : find_header_row t required_terms with _ | k
  · rw [process_excel_header_not_found s t hfh] at heq
    simp at heq
  · rcases hd : t.drop k with _ | ⟨hdr, data⟩
    · have he : t.drop (k + 1) = [] := by
        have hx : t.drop (k + 1) = (t.drop k).drop 1 := by
          rw [List.drop_drop, Nat.add_comm]
        rw [hx, hd, List.drop_nil]
      rw [process_excel_empty s t k hfh he] at heq
      simp at heq
    · by_cases hne : data = []
      · have he : t.drop (k + 1) = [] := by
          rw [drop_succ_of_drop_cons t k hdr data hd, hne]
        rw [process_excel_empty s t k hfh he] at heq
        simp at heq
      · rw [process_excel_success s t k hdr data hfh hd hne] at heq
        rw [Prod.mk.injEq, Prod.mk.injEq, Except.ok.injEq, Prod.mk.injEq] at heq
        obtain ⟨-, ⟨hr, -⟩, hw⟩ := heq
        exact ⟨⟨hdr, data, hr.symm⟩, by rw [← hr, ← hw]⟩

/-- C6: numeric coercion never raises: a cell whose text fails numeric
parsing becomes the missing value, in the roster identifier column and in
the grade file identifier and score columns (each coerced column is the
elementwise coercion of its raw column); the resulting missing counts are
reported exactly, as the roster invalid-code warning and as the grade-file
missing-score and missing-identifier anomaly counts, each present exactly
when its count is positive. -/
theorem C6_unparsable_becomes_missing (s : ExcState) :
    (∀ c : Cell, toNum c = Cell.na ↔
      (c = Cell.na ∨ ∃ u : String, c = Cell.str u ∧ parseNum u = none)) ∧
    (∀ (t : RawTable) (st2 : ExcState) (roster : DF) (pre : RawTable)
        (warns : List Warn),
      process_excel s (some t) = (st2, Except.ok (roster, pre), warns) →
      (∀ c ∈ getColByLabel roster "A:Code",
        c = Cell.na ∨ ∃ q : ℚ, c = Cell.num q) ∧
      (∀ n, Warn.invalidCodes n ∈ warns ↔
        (0 < n ∧ n = countNa (getColByLabel roster "A:Code")))) ∧
    (∀ (df out : DF) (anomalies : List Anomaly),
      process_csv s (some df) = Except.ok (out, anomalies) →
      getColByLabel out "A:Code" = (getColByLabel df "A:Code").map toNum ∧
      getColByLabel out "Note" = (getColByLabel df "Note").map toNum ∧
      (∀ n, Anomaly.notesManquantes n ∈ anomalies ↔
        (0 < n ∧ n = countNa (getColByLabel out "Note"))) ∧
      (∀ n, Anomaly.codesInvalides n ∈ anomalies ↔
        (0 < n ∧ n = countNa (getColByLabel out "A:Code")))) := by
  refine ⟨?_, ?_, ?_⟩
  · intro c
    cases c with
    | na => simp [toNum]
    | num q => simp [toNum]
    | str u =>
      unfold toNum
      cases hp : parseNum u with
      | none => simp [hp]
      | some q => simp [hp]
  · intro t st2 roster pre warns heq
    obtain ⟨⟨hdr, data, hr⟩, hw⟩ := process_excel_ok_inv s st2 t roster pre warns heq
    constructor
    · intro c hc
      rw [hr] at hc
      unfold buildRoster at hc
      rw [getColByLabel_coerceCol_self] at hc
      rw [List.mem_map] at hc
      obtain ⟨y, -, hy⟩ := hc
      rw [← hy]
      exact toNum_shape y
    · intro n
      rw [hw]
      unfold rosterWarnings
      split
      · next hpos =>
        rw [List.mem_singleton]
        constructor
        · intro h
          injection h with h
          exact ⟨h ▸ hpos, h⟩
        · rintro ⟨-, h⟩
          rw [h]
      · next hpos =>
        simp only [List.not_mem_nil, false_iff, not_and]
        intro hn h
        rw [h] at hn
        exact hpos hn
  · intro df out anomalies heq
    obtain ⟨hout, hanom⟩ := process_csv_ok_inv s df out anomalies heq
    have hcodes : getColByLabel out "A:Code" =
        (getColByLabel df "A:Code").map toNum := by
      rw [hout, getColByLabel_coerceCol_ne _ _ _ (by decide),
        getColByLabel_coerceCol_self]
    have hnotes : getColByLabel out "Note" =
        (getColByLabel df "Note").map toNum := by
      rw [hout, getColByLabel_coerceCol_self,
        getColByLabel_coerceCol_ne _ _ _ (by decide)]
    refine ⟨hcodes, hnotes, ?_, ?_⟩
    · intro n
      rw [hanom]
      unfold csvAnomalies
      simp only [List.mem_append]
      constructor
      · rintro (((h | h) | h) | h)
        · split at h
          · next hpos =>
            rw [List.mem_singleton] at h
            injection h with h
            exact ⟨h ▸ hpos, h⟩
          · simp at h
        · split at h <;> simp at h
        · split at h <;> simp at h
        · obtain ⟨m, hm⟩ := mem_rosterCrossCheck _ _ _ h
          exact Anomaly.noConfusion hm
      · rintro ⟨hpos, hn⟩
        refine Or.inl (Or.inl (Or.inl ?_))
        rw [hn, if_pos (hn ▸ hpos)]
        exact List.mem_singleton_self _
    · intro n
      rw [hanom]
      unfold csvAnomalies
      simp only [List.mem_append]
      constructor
      · rintro (((h | h) | h) | h)
        · split at h <;> simp at h
        · split at h <;> simp at h
        · split at h
          · next hpos =>
            rw [List.mem_singleton] at h
            injection h with h
            exact ⟨h ▸ hpos, h⟩
          · simp at h
        · obtain ⟨m, hm⟩ := mem_rosterCrossCheck _ _ _ h
          exact Anomaly.noConfusion hm
      · rintro ⟨hpos, hn⟩
        refine Or.inl (Or.inr ?_)
        rw [hn, if_pos (hn ▸ hpos)]
        exact List.mem_singleton_self _

theorem C6_unparsable_becomes_missing_witness :
    toNum (Cell.str "abc") = Cell.na ∧
    (∀ c ∈ getColByLabel
        (buildRoster [Cell.str "A:Code", Cell.str "Nom", Cell.str "Prénom"]
          [[Cell.str "101", Cell.str "Dupont", Cell.str "Jean"],
           [Cell.str "abc", Cell.str "Martin", Cell.str "Paul"]]) "A:Code",
      c = Cell.na ∨ ∃ q : ℚ, c = Cell.num q) ∧
    getColByLabel (coerceCol (coerceCol exCsvOnlyMissing "A:Code") "Note") "Note" =
      (getColByLabel exCsvOnlyMissing "Note").map toNum := by
  refine ⟨?_, ?_, ?_⟩
  · exact ((C6_unparsable_becomes_missing ⟨none, none⟩).1 (Cell.str "abc")).mpr
      (Or.inr ⟨"abc", rfl, by decide⟩)
  · exact (((C6_unparsable_becomes_missing ⟨none, none⟩).2.1 exTable _ _ _ _ rfl).1)
  · exact (((C6_unparsable_becomes_missing ⟨none, none⟩).2.2 exCsvOnlyMissing _ _
      rfl).2.1)

end AMCTools
